import Mathlib

/-!
Verification of the decentralized certificate validation system.

The development shallowly embeds:
* `contracts/CertificateRegistry.sol` — the on-chain registry: its state
  (`certificates` and `authorizedIssuers` mappings, the `Ownable` owner,
  the emitted events) and its operations (`issueCertificate`,
  `addAuthorizedIssuer`, `removeAuthorizedIssuer`, `verifyCertificate`,
  `isAuthorizedIssuer`, `getCertificate`), with EVM revert semantics
  (a failed call leaves the state unchanged);
* `backend/utils/crypto.js` — `encryptMetadata` / `decryptMetadata`
  (AES-256-CBC under a SHA-256-derived key, random IV, hex encodings),
  with the Node `crypto` library primitives (SHA-256, the AES cipher)
  and `JSON.stringify`/`JSON.parse` abstracted as parameters;
* `backend/utils/ipfs.js` — `uploadToIPFS` with its remote-to-local
  fallback, instrumented with call counts;
* `backend/routes/certificate.js` — the `/issue` and `/verify` route
  handlers, instrumented with the pipeline steps they perform.

Solidity `bytes32` values are modelled as `Nat` (the zero hash is `0`),
`address` as `Nat` (the zero address is `0`), and the two Solidity
mappings as association lists read with a zero default, exactly the
default-value semantics of EVM storage mappings.
-/

namespace CertChain

/-- A byte, as stored in buffers, keys and IVs. -/
abbrev Byte := Fin 256

/-- An EVM address (`address(0)` is `0`). -/
abbrev Address := Nat

/-- A `bytes32` document hash (`bytes32(0)` is `0`). -/
abbrev Bytes32 := Nat

/-- The `Certificate` struct of `CertificateRegistry.sol`.  The Solidity
field `exists` is a Lean keyword and is rendered `certExists`. -/
structure Certificate where
  docHash : Bytes32
  ipfsCID : String
  issuer : Address
  timestamp : Nat
  certExists : Bool
deriving DecidableEq, Repr

/-- The zero-valued `Certificate`, the default value an EVM mapping
returns for an absent key. -/
def zeroCertificate : Certificate :=
  { docHash := 0, ipfsCID := "", issuer := 0, timestamp := 0, certExists := false }

/-- The events the contract emits. -/
inductive Event where
  | certificateIssued (docHash : Bytes32) (ipfsCID : String) (issuer : Address) (timestamp : Nat)
  | issuerAdded (issuer : Address) (timestamp : Nat)
  | issuerRemoved (issuer : Address) (timestamp : Nat)
deriving DecidableEq, Repr

/-- The revert reasons of the contract's `require` statements and of the
`Ownable` modifier. -/
inductive Err where
  | notAuthorizedIssuer
  | invalidDocumentHash
  | invalidIPFSCID
  | certificateAlreadyExists
  | ownableUnauthorizedAccount
  | invalidIssuerAddress
  | issuerAlreadyAuthorized
  | issuerNotAuthorized
deriving DecidableEq, Repr

/-- The storage of `CertificateRegistry` plus its event log.  The two
mappings are association lists; an assignment prepends, a read takes the
most recent binding and falls back to the zero default. -/
structure RegistryState where
  certificates : List (Bytes32 × Certificate)
  authorizedIssuers : List (Address × Bool)
  owner : Address
  events : List Event
deriving DecidableEq, Repr

/-- Read of the `certificates` mapping (zero default). -/
def certOf (s : RegistryState) (h : Bytes32) : Certificate :=
  (s.certificates.lookup h).getD zeroCertificate

/-- Read of the `authorizedIssuers` mapping (`false` default). -/
def authOf (s : RegistryState) (a : Address) : Bool :=
  (s.authorizedIssuers.lookup a).getD false

/-- The constructor: the deployer becomes owner and first authorized
issuer, and an `IssuerAdded` event is emitted. -/
def deploy (deployer : Address) (now : Nat) : RegistryState :=
  { certificates := []
    authorizedIssuers := [(deployer, true)]
    owner := deployer
    events := [Event.issuerAdded deployer now] }

/-- `addAuthorizedIssuer`, with `msg.sender` and `block.timestamp`
explicit.  `onlyOwner` runs first, then the two `require`s in source
order. -/
def addAuthorizedIssuer (s : RegistryState) (sender : Address) (now : Nat)
    (issuer : Address) : Except Err RegistryState :=
  if sender ≠ s.owner then .error .ownableUnauthorizedAccount
  else if issuer = 0 then .error .invalidIssuerAddress
  else if authOf s issuer then .error .issuerAlreadyAuthorized
  else .ok { s with
    authorizedIssuers := (issuer, true) :: s.authorizedIssuers
    events := s.events ++ [Event.issuerAdded issuer now] }

/-- `removeAuthorizedIssuer`, with `msg.sender` and `block.timestamp`
explicit. -/
def removeAuthorizedIssuer (s : RegistryState) (sender : Address) (now : Nat)
    (issuer : Address) : Except Err RegistryState :=
  if sender ≠ s.owner then .error .ownableUnauthorizedAccount
  else if ¬ authOf s issuer then .error .issuerNotAuthorized
  else .ok { s with
    authorizedIssuers := (issuer, false) :: s.authorizedIssuers
    events := s.events ++ [Event.issuerRemoved issuer now] }

/-- `issueCertificate`, with `msg.sender` and `block.timestamp` explicit.
The `onlyAuthorizedIssuer` modifier runs first, then the three `require`s
in source order; on success the record is written and the event
emitted. -/
def issueCertificate (s : RegistryState) (sender : Address) (now : Nat)
    (docHash : Bytes32) (ipfsCID : String) : Except Err RegistryState :=
  if ¬ authOf s sender then .error .notAuthorizedIssuer
  else if docHash = 0 then .error .invalidDocumentHash
  else if ipfsCID = "" then .error .invalidIPFSCID
  else if (certOf s docHash).certExists then .error .certificateAlreadyExists
  else .ok { s with
    certificates := (docHash,
      { docHash := docHash, ipfsCID := ipfsCID, issuer := sender
        timestamp := now, certExists := true }) :: s.certificates
    events := s.events ++ [Event.certificateIssued docHash ipfsCID sender now] }

/-- `verifyCertificate`: the unrestricted view returning the tuple
`(exists, ipfsCID, issuer, timestamp)`. -/
def verifyCertificate (s : RegistryState) (docHash : Bytes32) :
    Bool × String × Address × Nat :=
  let c := certOf s docHash
  (c.certExists, c.ipfsCID, c.issuer, c.timestamp)

/-- `isAuthorizedIssuer`: the unrestricted view on the issuer mapping. -/
def isAuthorizedIssuer (s : RegistryState) (a : Address) : Bool :=
  authOf s a

/-- `getCertificate`: the unrestricted view returning the whole struct. -/
def getCertificate (s : RegistryState) (docHash : Bytes32) : Certificate :=
  certOf s docHash

/-- A transaction against the registry (the state-relevant external
entry points; `verify` is the read-only call). -/
inductive Op where
  | issue (sender now : Nat) (docHash : Bytes32) (ipfsCID : String)
  | addIssuer (sender now : Nat) (issuer : Address)
  | removeIssuer (sender now : Nat) (issuer : Address)
  | verify (docHash : Bytes32)
deriving DecidableEq, Repr

/-- One call: either a new state or a revert reason. -/
def step (s : RegistryState) : Op → Except Err RegistryState
  | .issue sender now h cid => issueCertificate s sender now h cid
  | .addIssuer sender now a => addAuthorizedIssuer s sender now a
  | .removeIssuer sender now a => removeAuthorizedIssuer s sender now a
  | .verify _ => .ok s

/-- EVM revert semantics: a failed call leaves the storage exactly as it
was. -/
def exec (s : RegistryState) (op : Op) : RegistryState :=
  match step s op with
  | .ok t => t
  | .error _ => s

/-! ### Hex encoding (the `'hex'` encodings of `crypto.js`) -/

/-- The lowercase hex digit characters Node's `'hex'` encoding emits. -/
def hexDigitChar (d : Fin 16) : Char :=
  match d.val with
  | 0 => '0' | 1 => '1' | 2 => '2' | 3 => '3' | 4 => '4' | 5 => '5'
  | 6 => '6' | 7 => '7' | 8 => '8' | 9 => '9' | 10 => 'a' | 11 => 'b'
  | 12 => 'c' | 13 => 'd' | 14 => 'e' | _ => 'f'

/-- Decodes one lowercase hex digit character. -/
def fromHexDigit (c : Char) : Option (Fin 16) :=
  if c = '0' then some 0 else if c = '1' then some 1
  else if c = '2' then some 2 else if c = '3' then some 3
  else if c = '4' then some 4 else if c = '5' then some 5
  else if c = '6' then some 6 else if c = '7' then some 7
  else if c = '8' then some 8 else if c = '9' then some 9
  else if c = 'a' then some 10 else if c = 'b' then some 11
  else if c = 'c' then some 12 else if c = 'd' then some 13
  else if c = 'e' then some 14 else if c = 'f' then some 15
  else none

/-- High hex digit of a byte. -/
def hiDigit (b : Byte) : Fin 16 :=
  ⟨b.val / 16, by have := b.isLt; omega⟩

/-- Low hex digit of a byte. -/
def loDigit (b : Byte) : Fin 16 :=
  ⟨b.val % 16, by omega⟩

/-- Reassembles a byte from its two hex digits. -/
def byteOfDigits (h l : Fin 16) : Byte :=
  ⟨h.val * 16 + l.val, by have := h.isLt; have := l.isLt; omega⟩

/-- `buffer.toString('hex')`: lowercase hex of a byte list. -/
def toHex (bs : List Byte) : String :=
  String.mk (bs.foldr
    (fun b acc => hexDigitChar (hiDigit b) :: hexDigitChar (loDigit b) :: acc) [])

/-- Decodes a hex character list two digits at a time. -/
def fromHexChars : List Char → Option (List Byte)
  | [] => some []
  | [_] => none
  | c1 :: c2 :: rest => do
      let h ← fromHexDigit c1
      let l ← fromHexDigit c2
      let bs ← fromHexChars rest
      pure (byteOfDigits h l :: bs)

/-- `Buffer.from(s, 'hex')` on well-formed input; `none` models input the
decipher construction rejects. -/
def fromHex (s : String) : Option (List Byte) :=
  fromHexChars s.data

/-! ### The cipher layer of `backend/utils/crypto.js`

The Node `crypto` library primitives and `JSON.stringify`/`JSON.parse`
are not code of this repository; they enter as explicit parameters.
`aesEnc key iv plain` is `createCipheriv('aes-256-cbc', key, iv)` run
over the UTF-8 plaintext with hex output; `aesDec` is the corresponding
decipher, `none` modelling a throw (bad padding, bad IV length). -/

/-- The external primitives `crypto.js` and the routes call into,
parameterized by the metadata type `α`. -/
structure CryptoPrims (α : Type) where
  fingerprint : List Byte → Bytes32
  sha256 : String → List Byte
  aesEnc : List Byte → List Byte → String → String
  aesDec : List Byte → List Byte → String → Option String
  jsonStringify : α → String
  jsonParse : String → Option α

/-- The object `encryptMetadata` returns: hex ciphertext, hex IV, and the
algorithm tag. -/
structure EncryptedMetadata where
  encrypted : String
  iv : String
  algorithm : String
deriving DecidableEq, Repr

/-- `encryptMetadata(data, key)` with the random IV explicit: derives the
32-byte key as `sha256(key)`, JSON-serializes the data, encrypts, and
returns hex ciphertext and hex IV. -/
def encryptMetadata {α : Type} (p : CryptoPrims α) (data : α) (key : String)
    (iv : List Byte) : EncryptedMetadata :=
  let encryptionKey := p.sha256 key
  { encrypted := p.aesEnc encryptionKey iv (p.jsonStringify data)
    iv := toHex iv
    algorithm := "aes-256-cbc" }

/-- `decryptMetadata(encryptedData, ivHex, key)`: derives the key as
`sha256(key)`, decodes the IV from hex, decrypts, and JSON-parses the
plaintext.  `none` models a thrown error. -/
def decryptMetadata {α : Type} (p : CryptoPrims α) (encryptedData : String)
    (ivHex : String) (key : String) : Option α :=
  let encryptionKey := p.sha256 key
  match fromHex ivHex with
  | none => none
  | some iv => (p.aesDec encryptionKey iv encryptedData).bind p.jsonParse

/-! ### The blob store of `backend/utils/ipfs.js` -/

/-- `uploadToIPFS(data)`, instrumented with how many times the remote
`ipfsClient.add` and the local `saveToLocalStorage` were invoked.
`remoteAdd data = none` models a rejected IPFS add; `localSave` may
itself throw (`Except.error`), which the source surfaces. -/
def uploadToIPFS {α : Type} (useIPFS clientReady : Bool)
    (remoteAdd : α → Option String) (localSave : α → Except Unit String)
    (data : α) : Except Unit String × Nat × Nat :=
  if useIPFS && clientReady then
    match remoteAdd data with
    | some cidPath => (.ok cidPath, 1, 0)
    | none => (localSave data, 1, 1)
  else (localSave data, 0, 1)

/-! ### The route handlers of `backend/routes/certificate.js` -/

/-- The metadata object the `/issue` handler builds from the request
body; absent body fields are `none`. -/
structure Metadata where
  studentName : Option String
  courseName : Option String
  institution : Option String
  issueDate : Option String
  grade : Option String
  additionalInfo : Option String
deriving DecidableEq, Repr

/-- JS falsiness of an optional string field: `undefined` and `""` are
the falsy cases `!metadata.field` catches. -/
def falsyStr : Option String → Bool
  | none => true
  | some s => s = ""

/-- The pipeline steps the `/issue` handler performs after validation. -/
inductive IssueStep where
  | hash
  | encrypt
  | upload
  | ledger
  | db
deriving DecidableEq, Repr

/-- The outcome of the `/issue` handler. -/
inductive IssueResult where
  | notInitialized
  | noFile
  | missingMetadata
  | uploadFailed
  | ledgerFailed (e : Err)
  | issued (docHash : Bytes32) (ipfsCID : String) (issuer : Address)
      (newState : RegistryState)
deriving DecidableEq, Repr

/-- The `/issue` request: the uploaded file and the body fields. -/
structure IssueRequest where
  file : Option (List Byte)
  studentName : Option String
  courseName : Option String
  institution : Option String
  issueDate : Option String
  grade : Option String
  additionalInfo : Option String

/-- The `/issue` handler: readiness and file checks, metadata
validation, then hash → encrypt → upload → ledger write → audit insert,
instrumented with the list of pipeline steps actually performed. -/
def issueRoute (p : CryptoPrims Metadata) (web3Ready : Bool)
    (req : IssueRequest) (key : String) (iv : List Byte)
    (reg : RegistryState) (sender : Address) (now : Nat)
    (upload : EncryptedMetadata → Except Unit String) :
    IssueResult × List IssueStep :=
  if ¬ web3Ready then (.notInitialized, [])
  else match req.file with
  | none => (.noFile, [])
  | some buf =>
    let metadata : Metadata :=
      ⟨req.studentName, req.courseName, req.institution,
       req.issueDate, req.grade, req.additionalInfo⟩
    if falsyStr metadata.studentName || falsyStr metadata.courseName ||
        falsyStr metadata.institution then
      (.missingMetadata, [])
    else
      let docHash := p.fingerprint buf
      let encryptedData := encryptMetadata p metadata key iv
      match upload encryptedData with
      | .error _ => (.uploadFailed, [.hash, .encrypt, .upload])
      | .ok ipfsCID =>
        match issueCertificate reg sender now docHash ipfsCID with
        | .error e => (.ledgerFailed e, [.hash, .encrypt, .upload, .ledger])
        | .ok reg2 =>
          (.issued docHash ipfsCID sender reg2,
           [.hash, .encrypt, .upload, .ledger, .db])

/-- The outcome of the `/verify` handler. -/
inductive VerifyResult (α : Type) where
  | notInitialized
  | noFile
  | invalid (docHash : Bytes32)
  | valid (docHash : Bytes32) (issuer : Address) (timestamp : Nat)
      (ipfsCID : String) (metadata : Option α)
deriving DecidableEq, Repr

/-- The `/verify` handler: hashes the file, asks the ledger, and — only
as enrichment — fetches and decrypts the metadata blob, any failure in
that block being caught and leaving `metadata` null. -/
def verifyRoute {α : Type} (p : CryptoPrims α) (web3Ready : Bool)
    (reg : RegistryState) (file : Option (List Byte))
    (fetchBlob : String → Option EncryptedMetadata) (key : String) :
    VerifyResult α :=
  if ¬ web3Ready then .notInitialized
  else match file with
  | none => .noFile
  | some buf =>
    let docHash := p.fingerprint buf
    let cd := verifyCertificate reg docHash
    if ¬ cd.1 then .invalid docHash
    else
      let metadata : Option α :=
        match fetchBlob cd.2.1 with
        | none => none
        | some blob => decryptMetadata p blob.encrypted blob.iv key
      .valid docHash cd.2.2.1 cd.2.2.2 cd.2.1 metadata

/-! ### Helper lemmas -/

/-- Reading a freshly prepended binding. -/
lemma certOf_set_self (s : RegistryState) (h : Bytes32) (c : Certificate)
    (certs : List (Bytes32 × Certificate)) (hc : s.certificates = (h, c) :: certs) :
    certOf s h = c := by
  simp [certOf, hc, List.lookup]

/-- Prepending a binding for a different key does not change a read. -/
lemma certOf_set_ne (s t : RegistryState) (h h' : Bytes32) (c : Certificate)
    (hne : h' ≠ h) (hc : t.certificates = (h', c) :: s.certificates) :
    certOf t h = certOf s h := by
  have hb : (h == h') = false := by
    simpa using fun hhh => hne hhh.symm
  simp [certOf, hc, List.lookup, hb]

/-- `step` on an issue transaction is `issueCertificate`. -/
lemma step_issue (s : RegistryState) (sender now h : Nat) (cid : String) :
    step s (Op.issue sender now h cid) = issueCertificate s sender now h cid := rfl

/-- A successful call commits its new state. -/
lemma exec_of_ok (s t : RegistryState) (op : Op) (hok : step s op = .ok t) :
    exec s op = t := by
  unfold exec
  rw [hok]

/-- A reverted call leaves the state unchanged. -/
lemma exec_of_error (s : RegistryState) (op : Op) {e : Err}
    (he : step s op = .error e) : exec s op = s := by
  unfold exec
  rw [he]

/-- States with the same `certificates` mapping read alike. -/
lemma certOf_congr (s t : RegistryState) (h : Bytes32)
    (hc : t.certificates = s.certificates) : certOf t h = certOf s h := by
  simp [certOf, hc]

/-- Inversion of a successful `issueCertificate` call: the checks all
passed and the new state is the old one with the record prepended and
the event appended. -/
lemma issueCertificate_ok {s s' : RegistryState} {sender now h : Nat} {cid : String}
    (hok : issueCertificate s sender now h cid = .ok s') :
    authOf s sender = true ∧ h ≠ 0 ∧ cid ≠ "" ∧
    (certOf s h).certExists = false ∧
    s' = { s with
      certificates := (h, { docHash := h, ipfsCID := cid, issuer := sender
                            timestamp := now, certExists := true }) :: s.certificates
      events := s.events ++ [Event.certificateIssued h cid sender now] } := by
  unfold issueCertificate at hok
  split at hok
  · simp at hok
  · split at hok
    · simp at hok
    · split at hok
      · simp at hok
      · split at hok
        · simp at hok
        · simp_all

/-- Inversion of a successful `removeAuthorizedIssuer` call. -/
lemma removeAuthorizedIssuer_ok {s s' : RegistryState} {sender now issuer : Nat}
    (hok : removeAuthorizedIssuer s sender now issuer = .ok s') :
    sender = s.owner ∧ authOf s issuer = true ∧
    s' = { s with
      authorizedIssuers := (issuer, false) :: s.authorizedIssuers
      events := s.events ++ [Event.issuerRemoved issuer now] } := by
  unfold removeAuthorizedIssuer at hok
  split at hok
  · simp at hok
  · split at hok
    · simp at hok
    · simp_all

/-- Inversion of a successful `addAuthorizedIssuer` call. -/
lemma addAuthorizedIssuer_ok {s s' : RegistryState} {sender now issuer : Nat}
    (hok : addAuthorizedIssuer s sender now issuer = .ok s') :
    sender = s.owner ∧ issuer ≠ 0 ∧ authOf s issuer = false ∧
    s' = { s with
      authorizedIssuers := (issuer, true) :: s.authorizedIssuers
      events := s.events ++ [Event.issuerAdded issuer now] } := by
  unfold addAuthorizedIssuer at hok
  split at hok
  · simp at hok
  · split at hok
    · simp at hok
    · split at hok
      · simp at hok
      · simp_all

/-- An already-present record makes `issueCertificate` revert. -/
lemma issueCertificate_error_of_present (s : RegistryState) (sender now h : Nat)
    (cid : String) (hex : (certOf s h).certExists = true) :
    ∃ e, issueCertificate s sender now h cid = .error e := by
  unfold issueCertificate
  repeat' split
  all_goals exact ⟨_, rfl⟩

/-- A sample deployment: address `1` deploys at time `0` and issues the
certificate `5 ↦ "QmCID"` at time `10`. -/
def sampleState : RegistryState :=
  exec (deploy 1 0) (Op.issue 1 10 5 "QmCID")

/-! ### The claims about the registry -/

/-- C1: the ledger is append-only per key.  Once a record is present for
`h`, every operation (issue of any key, authorize, revoke, lookup)
leaves that record exactly as it is, and any further issue attempt for
`h` reverts, leaving the whole state equal to what it was after the
first issue alone. -/
theorem registry_append_only (s : RegistryState) (h : Bytes32)
    (hex : (certOf s h).certExists = true) :
    (∀ op, certOf (exec s op) h = certOf s h) ∧
    (∀ sender now cid,
      (∃ e, step s (Op.issue sender now h cid) = .error e) ∧
      exec s (Op.issue sender now h cid) = s) := by
  constructor
  · intro op
    cases op with
    | issue sender now h' cid =>
      cases hres : issueCertificate s sender now h' cid with
      | error e => rw [exec_of_error s (Op.issue sender now h' cid) hres]
      | ok t =>
        rw [exec_of_ok s t (Op.issue sender now h' cid) hres]
        obtain ⟨-, -, -, habs, ht⟩ := issueCertificate_ok hres
        have hne : h' ≠ h := by
          intro hEq
          rw [hEq, hex] at habs
          exact Bool.noConfusion habs
        exact certOf_set_ne s t h h' _ hne (by rw [ht])
    | addIssuer sender now a =>
      cases hres : addAuthorizedIssuer s sender now a with
      | error e => rw [exec_of_error s (Op.addIssuer sender now a) hres]
      | ok t =>
        rw [exec_of_ok s t (Op.addIssuer sender now a) hres]
        obtain ⟨-, -, -, ht⟩ := addAuthorizedIssuer_ok hres
        exact certOf_congr s t h (by rw [ht])
    | removeIssuer sender now a =>
      cases hres : removeAuthorizedIssuer s sender now a with
      | error e => rw [exec_of_error s (Op.removeIssuer sender now a) hres]
      | ok t =>
        rw [exec_of_ok s t (Op.removeIssuer sender now a) hres]
        obtain ⟨-, -, ht⟩ := removeAuthorizedIssuer_ok hres
        exact certOf_congr s t h (by rw [ht])
    | verify h' => rfl
  · intro sender now cid
    obtain ⟨e, he⟩ := issueCertificate_error_of_present s sender now h cid hex
    exact ⟨⟨e, he⟩, exec_of_error s (Op.issue sender now h cid) he⟩

/-- Witness for C1: in the sample deployment the record for hash `5` is
present, so the append-only theorem applies to it. -/
theorem registry_append_only_witness :
    (certOf sampleState 5).certExists = true ∧
    ((∀ op, certOf (exec sampleState op) 5 = certOf sampleState 5) ∧
     (∀ sender now cid,
       (∃ e, step sampleState (Op.issue sender now 5 cid) = .error e) ∧
       exec sampleState (Op.issue sender now 5 cid) = sampleState)) :=
  ⟨by decide, registry_append_only sampleState 5 (by decide)⟩

/-- C3: `issueCertificate` reverts with `Not an authorized issuer` for an
untrusted caller, `Invalid document hash` on the zero hash, `Invalid
IPFS CID` on the empty reference, `Certificate already exists` on a
duplicate — in that order — and otherwise writes the record with the
caller as issuer and the current time as timestamp and emits the
`CertificateIssued` event. -/
theorem issueCertificate_spec (s : RegistryState) (sender now h : Nat) (cid : String) :
    (authOf s sender = false →
      issueCertificate s sender now h cid = .error .notAuthorizedIssuer) ∧
    (authOf s sender = true → h = 0 →
      issueCertificate s sender now h cid = .error .invalidDocumentHash) ∧
    (authOf s sender = true → h ≠ 0 → cid = "" →
      issueCertificate s sender now h cid = .error .invalidIPFSCID) ∧
    (authOf s sender = true → h ≠ 0 → cid ≠ "" →
      (certOf s h).certExists = true →
      issueCertificate s sender now h cid = .error .certificateAlreadyExists) ∧
    (authOf s sender = true → h ≠ 0 → cid ≠ "" →
      (certOf s h).certExists = false →
      ∃ s', issueCertificate s sender now h cid = .ok s' ∧
        certOf s' h = { docHash := h, ipfsCID := cid, issuer := sender
                        timestamp := now, certExists := true } ∧
        (∀ h', h' ≠ h → certOf s' h' = certOf s h') ∧
        s'.authorizedIssuers = s.authorizedIssuers ∧
        s'.owner = s.owner ∧
        s'.events = s.events ++ [Event.certificateIssued h cid sender now]) := by
  refine ⟨?_, ?_, ?_, ?_, ?_⟩
  · intro h1
    simp [issueCertificate, h1]
  · intro h1 h2
    simp [issueCertificate, h1, h2]
  · intro h1 h2 h3
    simp [issueCertificate, h1, h2, h3]
  · intro h1 h2 h3 h4
    simp [issueCertificate, h1, h2, h3, h4]
  · intro h1 h2 h3 h4
    refine ⟨{ s with
      certificates := (h, { docHash := h, ipfsCID := cid, issuer := sender
                            timestamp := now, certExists := true }) :: s.certificates
      events := s.events ++ [Event.certificateIssued h cid sender now] },
      ?_, ?_, ?_, rfl, rfl, rfl⟩
    · simp [issueCertificate, h1, h2, h3, h4]
    · exact certOf_set_self _ h _ _ rfl
    · intro h' hne
      exact certOf_set_ne s _ h' h _ (Ne.symm hne) rfl

/-- Witness for C3: the success branch at concrete inputs. -/
theorem issueCertificate_spec_witness :
    authOf sampleState 1 = true ∧ (9 : Nat) ≠ 0 ∧ ("Qm2" : String) ≠ "" ∧
    (certOf sampleState 9).certExists = false ∧
    (∃ s', issueCertificate sampleState 1 11 9 "Qm2" = .ok s' ∧
      certOf s' 9 = { docHash := 9, ipfsCID := "Qm2", issuer := 1
                      timestamp := 11, certExists := true } ∧
      (∀ h', h' ≠ 9 → certOf s' h' = certOf sampleState h') ∧
      s'.authorizedIssuers = sampleState.authorizedIssuers ∧
      s'.owner = sampleState.owner ∧
      s'.events = sampleState.events ++ [Event.certificateIssued 9 "Qm2" 1 11]) :=
  ⟨by decide, by decide, by decide, by decide,
   (issueCertificate_spec sampleState 1 11 9 "Qm2").2.2.2.2
     (by decide) (by decide) (by decide) (by decide)⟩

/-- C5: an untrusted identity's issue call reverts with the
authorization error and the entire ledger state after the failed call
equals the state before it. -/
theorem untrusted_issue_rejected (s : RegistryState) (sender now h : Nat)
    (cid : String) (huntrusted : authOf s sender = false) :
    issueCertificate s sender now h cid = .error .notAuthorizedIssuer ∧
    exec s (Op.issue sender now h cid) = s := by
  have h1 : issueCertificate s sender now h cid = .error .notAuthorizedIssuer := by
    simp [issueCertificate, huntrusted]
  exact ⟨h1, exec_of_error s (Op.issue sender now h cid) h1⟩

/-- Witness for C5: address `2` is not trusted in the sample deployment. -/
theorem untrusted_issue_rejected_witness :
    authOf sampleState 2 = false ∧
    (issueCertificate sampleState 2 12 9 "Qm2" = .error .notAuthorizedIssuer ∧
     exec sampleState (Op.issue 2 12 9 "Qm2") = sampleState) :=
  ⟨by decide, untrusted_issue_rejected sampleState 2 12 9 "Qm2" (by decide)⟩

/-- C6: a successful `removeAuthorizedIssuer` leaves every certificate
record unchanged — `verifyCertificate` and `getCertificate` answer
exactly as before on every hash — while subsequent issue calls by the
revoked writer revert with the authorization error, without changing
state. -/
theorem revoke_preserves_records (s s' : RegistryState) (sender now W : Nat)
    (hrm : removeAuthorizedIssuer s sender now W = .ok s') :
    (∀ h, verifyCertificate s' h = verifyCertificate s h) ∧
    (∀ h, getCertificate s' h = getCertificate s h) ∧
    (∀ now' h cid,
      issueCertificate s' W now' h cid = .error .notAuthorizedIssuer ∧
      exec s' (Op.issue W now' h cid) = s') := by
  obtain ⟨hsender, htrusted, hs'⟩ := removeAuthorizedIssuer_ok hrm
  have hauth : authOf s' W = false := by
    simp [authOf, hs', List.lookup]
  refine ⟨?_, ?_, ?_⟩
  · intro h
    unfold verifyCertificate
    rw [certOf_congr s s' h (by rw [hs'])]
  · intro h
    unfold getCertificate
    exact certOf_congr s s' h (by rw [hs'])
  · intro now' h cid
    have h1 : issueCertificate s' W now' h cid = .error .notAuthorizedIssuer := by
      simp [issueCertificate, hauth]
    exact ⟨h1, exec_of_error s' (Op.issue W now' h cid) h1⟩

/-- The sample deployment after the owner revokes writer `1`. -/
def revokedState : RegistryState :=
  exec sampleState (Op.removeIssuer 1 20 1)

/-- Witness for C6: the owner revokes writer `1`; the record for hash
`5` reads unchanged and writer `1` can no longer issue. -/
theorem revoke_preserves_records_witness :
    (∀ h, verifyCertificate revokedState h = verifyCertificate sampleState h) ∧
    (∀ h, getCertificate revokedState h = getCertificate sampleState h) ∧
    (∀ now' h cid,
      issueCertificate revokedState 1 now' h cid = .error .notAuthorizedIssuer ∧
      exec revokedState (Op.issue 1 now' h cid) = revokedState) :=
  revoke_preserves_records sampleState revokedState 1 20 1 (by rfl)

/-- C7: `verifyCertificate` is a total read: for every state and hash it
returns the presence flag together with the stored record's fields, and
on an absent key it returns the zero-valued record
`(false, "", 0, 0)`. -/
theorem verifyCertificate_total_spec (s : RegistryState) (h : Bytes32) :
    verifyCertificate s h =
      ((certOf s h).certExists, (certOf s h).ipfsCID, (certOf s h).issuer,
        (certOf s h).timestamp) ∧
    (s.certificates.lookup h = none → verifyCertificate s h = (false, "", 0, 0)) := by
  refine ⟨rfl, ?_⟩
  intro hnone
  simp [verifyCertificate, certOf, hnone, zeroCertificate]

/-- Witness for C7: hash `7` has no record in the sample deployment and
reads as the zero-valued tuple. -/
theorem verifyCertificate_total_spec_witness :
    sampleState.certificates.lookup 7 = none ∧
    verifyCertificate sampleState 7 = (false, "", 0, 0) :=
  ⟨by decide, (verifyCertificate_total_spec sampleState 7).2 (by decide)⟩

/-! ### Hex round trip -/

/-- Decoding inverts the hex digit table. -/
lemma fromHexDigit_hexDigitChar :
    ∀ d : Fin 16, fromHexDigit (hexDigitChar d) = some d := by decide

/-- A byte is reassembled from its own digits. -/
lemma byteOfDigits_hi_lo (b : Byte) :
    byteOfDigits (hiDigit b) (loDigit b) = b := by
  apply Fin.ext
  simp only [byteOfDigits, hiDigit, loDigit]
  omega

/-- Decoding inverts the character-level encoding. -/
lemma fromHexChars_encode (bs : List Byte) :
    fromHexChars (bs.foldr (fun b acc =>
      hexDigitChar (hiDigit b) :: hexDigitChar (loDigit b) :: acc) []) = some bs := by
  induction bs with
  | nil => rfl
  | cons b bs ih =>
    simp [fromHexChars, fromHexDigit_hexDigitChar, ih, byteOfDigits_hi_lo]

/-- `Buffer.from(·, 'hex')` inverts `toString('hex')`: the IV survives
its hex round trip between `encryptMetadata` and `decryptMetadata`. -/
lemma fromHex_toHex (bs : List Byte) : fromHex (toHex bs) = some bs :=
  fromHexChars_encode bs

/-! ### The cipher claims -/

/-- C4: the metadata cipher round-trips.  Whenever the AES primitive
inverts itself under the same derived key and IV and JSON parsing
inverts serialization — the contracts of the Node `crypto` and JSON
libraries — `decryptMetadata` recovers exactly the metadata
`encryptMetadata` was given, and `/verify` on an issued file whose blob
is fetched back intact reports `valid` with the original metadata. -/
theorem metadata_roundtrip {α : Type} (p : CryptoPrims α)
    (hAES : ∀ k iv s, p.aesDec (p.sha256 k) iv (p.aesEnc (p.sha256 k) iv s) = some s)
    (hJSON : ∀ m, p.jsonParse (p.jsonStringify m) = some m)
    (m : α) (key : String) (iv : List Byte) :
    decryptMetadata p (encryptMetadata p m key iv).encrypted
      (encryptMetadata p m key iv).iv key = some m ∧
    (∀ (reg : RegistryState) (buf : List Byte)
        (fetchBlob : String → Option EncryptedMetadata),
      (certOf reg (p.fingerprint buf)).certExists = true →
      fetchBlob (certOf reg (p.fingerprint buf)).ipfsCID =
        some (encryptMetadata p m key iv) →
      verifyRoute p true reg (some buf) fetchBlob key =
        .valid (p.fingerprint buf) (certOf reg (p.fingerprint buf)).issuer
          (certOf reg (p.fingerprint buf)).timestamp
          (certOf reg (p.fingerprint buf)).ipfsCID (some m)) := by
  have hrt : decryptMetadata p (encryptMetadata p m key iv).encrypted
      (encryptMetadata p m key iv).iv key = some m := by
    unfold decryptMetadata encryptMetadata
    simp [fromHex_toHex, hAES, hJSON]
  refine ⟨hrt, ?_⟩
  intro reg buf fetchBlob hex hfetch
  unfold verifyRoute verifyCertificate
  simp [hex, hfetch, hrt]

/-- C10: both directions of key derivation.  `encryptMetadata` encrypts
under `sha256(key)` — any key string, the empty one included, is
accepted — and under the stated library contracts (the cipher inverts
itself under the matching derived key, a mismatched derived key never
reproduces the plaintext, JSON parsing inverts serialization and
determines its input) decryption recovers the metadata exactly when the
two key strings have equal SHA-256 digests. -/
theorem key_derivation_sha256 {α : Type} (p : CryptoPrims α)
    (hAES : ∀ k iv s, p.aesDec (p.sha256 k) iv (p.aesEnc (p.sha256 k) iv s) = some s)
    (hWK : ∀ k1 k2 iv s,
      p.aesDec (p.sha256 k2) iv (p.aesEnc (p.sha256 k1) iv s) = some s →
      p.sha256 k2 = p.sha256 k1)
    (hJSON : ∀ m, p.jsonParse (p.jsonStringify m) = some m)
    (hPU : ∀ s m, p.jsonParse s = some m → s = p.jsonStringify m)
    (m : α) (k1 k2 : String) (iv : List Byte) :
    (encryptMetadata p m k1 iv).encrypted =
      p.aesEnc (p.sha256 k1) iv (p.jsonStringify m) ∧
    (decryptMetadata p (encryptMetadata p m k1 iv).encrypted
        (encryptMetadata p m k1 iv).iv k2 = some m ↔
      p.sha256 k1 = p.sha256 k2) := by
  refine ⟨rfl, ?_, ?_⟩
  · intro hdec
    unfold decryptMetadata encryptMetadata at hdec
    simp [fromHex_toHex] at hdec
    obtain ⟨s', hs', hparse⟩ := Option.bind_eq_some.mp hdec
    have hsm : s' = p.jsonStringify m := hPU s' m hparse
    rw [hsm] at hs'
    exact (hWK k1 k2 iv (p.jsonStringify m) hs').symm
  · intro hsha
    unfold decryptMetadata encryptMetadata
    simp only [fromHex_toHex]
    rw [← hsha]
    simp [hAES, hJSON]

/-! ### The route and blob-store claims -/

/-- C2: the ledger lookup alone decides validity in `/verify`.  On an
issued fingerprint the response is `valid` whatever the blob fetch
returns — in particular with `metadata` null when the fetch fails or the
decryption fails — and on an unknown fingerprint the response is
`invalid`. -/
theorem verifyRoute_ledger_decides {α : Type} (p : CryptoPrims α)
    (reg : RegistryState) (buf : List Byte)
    (fetchBlob : String → Option EncryptedMetadata) (key : String) :
    ((certOf reg (p.fingerprint buf)).certExists = true →
      (∃ md, verifyRoute p true reg (some buf) fetchBlob key =
        .valid (p.fingerprint buf) (certOf reg (p.fingerprint buf)).issuer
          (certOf reg (p.fingerprint buf)).timestamp
          (certOf reg (p.fingerprint buf)).ipfsCID md) ∧
      (fetchBlob (certOf reg (p.fingerprint buf)).ipfsCID = none →
        verifyRoute p true reg (some buf) fetchBlob key =
          .valid (p.fingerprint buf) (certOf reg (p.fingerprint buf)).issuer
            (certOf reg (p.fingerprint buf)).timestamp
            (certOf reg (p.fingerprint buf)).ipfsCID none) ∧
      (∀ blob, fetchBlob (certOf reg (p.fingerprint buf)).ipfsCID = some blob →
        decryptMetadata p blob.encrypted blob.iv key = none →
        verifyRoute p true reg (some buf) fetchBlob key =
          .valid (p.fingerprint buf) (certOf reg (p.fingerprint buf)).issuer
            (certOf reg (p.fingerprint buf)).timestamp
            (certOf reg (p.fingerprint buf)).ipfsCID none)) ∧
    ((certOf reg (p.fingerprint buf)).certExists = false →
      verifyRoute p true reg (some buf) fetchBlob key =
        .invalid (p.fingerprint buf)) := by
  constructor
  · intro hex
    refine ⟨?_, ?_, ?_⟩
    · unfold verifyRoute verifyCertificate
      cases hfetch : fetchBlob (certOf reg (p.fingerprint buf)).ipfsCID with
      | none => exact ⟨none, by simp [hex, hfetch]⟩
      | some blob =>
        exact ⟨decryptMetadata p blob.encrypted blob.iv key, by simp [hex, hfetch]⟩
    · intro hfetch
      unfold verifyRoute verifyCertificate
      simp [hex, hfetch]
    · intro blob hfetch hdec
      unfold verifyRoute verifyCertificate
      simp [hex, hfetch, hdec]
  · intro hex
    unfold verifyRoute verifyCertificate
    simp [hex]

/-- C8: when the remote backend is selected (`USE_IPFS` and an
initialized client) and the remote add fails, `uploadToIPFS` calls the
local backend exactly once in the same call, returns its result, and
does not surface the remote error. -/
theorem uploadToIPFS_fallback {α : Type} (remoteAdd : α → Option String)
    (localSave : α → Except Unit String) (data : α)
    (hfail : remoteAdd data = none) :
    uploadToIPFS true true remoteAdd localSave data = (localSave data, 1, 1) ∧
    (∀ r, localSave data = .ok r →
      (uploadToIPFS true true remoteAdd localSave data).1 = .ok r) := by
  constructor
  · simp [uploadToIPFS, hfail]
  · intro r hr
    simp [uploadToIPFS, hfail, hr]

/-- C9: `/issue` validates the required metadata fields first.  With a
required field missing (or empty — JS falsiness) the handler answers
`Missing required metadata fields` having performed none of the
pipeline steps: no hashing, no encryption, no blob store, no ledger
call.  With all three present, the pipeline proceeds through hash,
encrypt and upload. -/
theorem issueRoute_validates_first (p : CryptoPrims Metadata)
    (req : IssueRequest) (key : String) (iv : List Byte)
    (reg : RegistryState) (sender now : Nat)
    (upload : EncryptedMetadata → Except Unit String) (buf : List Byte)
    (hfile : req.file = some buf) :
    ((falsyStr req.studentName || falsyStr req.courseName ||
        falsyStr req.institution) = true →
      issueRoute p true req key iv reg sender now upload =
        (.missingMetadata, [])) ∧
    ((falsyStr req.studentName || falsyStr req.courseName ||
        falsyStr req.institution) = false →
      (∃ rest, (issueRoute p true req key iv reg sender now upload).2 =
        IssueStep.hash :: IssueStep.encrypt :: IssueStep.upload :: rest) ∧
      (issueRoute p true req key iv reg sender now upload).1 ≠
        .missingMetadata) := by
  constructor
  · intro hbad
    unfold issueRoute
    simp [hfile, hbad]
  · intro hgood
    unfold issueRoute
    simp only [hfile]
    simp only [hgood]
    cases hup : upload (encryptMetadata p
        ⟨req.studentName, req.courseName, req.institution,
         req.issueDate, req.grade, req.additionalInfo⟩ key iv) with
    | error e => simp [hup]
    | ok cid =>
      cases hiss : issueCertificate reg sender now (p.fingerprint buf) cid with
      | error e => simp [hup, hiss]
      | ok reg2 => simp [hup, hiss]

/-! ### Concrete primitive instances used by the witnesses -/

/-- A concrete primitive family for witnesses: the digest is the key
length reduced mod 256, the cipher tags the plaintext with one key
character, serialization is the identity. -/
def witPrims : CryptoPrims String where
  fingerprint := fun buf => buf.length
  sha256 := fun s => [⟨s.length % 256, Nat.mod_lt _ (by norm_num)⟩]
  aesEnc := fun k _ s => String.mk (Char.ofNat (k.headD 0).val :: s.data)
  aesDec := fun k _ c =>
    match c.data with
    | [] => none
    | ch :: rest =>
      if ch.toNat = (k.headD 0).val then some (String.mk rest) else none
  jsonStringify := id
  jsonParse := some

set_option maxRecDepth 4096 in
/-- Byte values survive the `Char` round trip. -/
lemma char_ofNat_toNat_byte : ∀ b : Byte, (Char.ofNat b.val).toNat = b.val := by
  decide

/-- Specialization of the `Char` round trip to reduced values. -/
lemma char_toNat_mod256 (n : Nat) : (Char.ofNat (n % 256)).toNat = n % 256 :=
  char_ofNat_toNat_byte ⟨n % 256, Nat.mod_lt _ (by norm_num)⟩

/-- `witPrims` satisfies the cipher inversion contract. -/
lemma witPrims_aes (k : String) (iv : List Byte) (s : String) :
    witPrims.aesDec (witPrims.sha256 k) iv
      (witPrims.aesEnc (witPrims.sha256 k) iv s) = some s := by
  simp [witPrims, char_toNat_mod256]

/-- `witPrims` satisfies the wrong-key-rejection contract. -/
lemma witPrims_wk (k1 k2 : String) (iv : List Byte) (s : String)
    (h : witPrims.aesDec (witPrims.sha256 k2) iv
      (witPrims.aesEnc (witPrims.sha256 k1) iv s) = some s) :
    witPrims.sha256 k2 = witPrims.sha256 k1 := by
  simp [witPrims, char_toNat_mod256] at h ⊢
  omega

/-- `witPrims` satisfies the JSON inversion contract. -/
lemma witPrims_json (m : String) :
    witPrims.jsonParse (witPrims.jsonStringify m) = some m := rfl

/-- `witPrims` satisfies the parse-uniqueness contract. -/
lemma witPrims_pu (s m : String) (h : witPrims.jsonParse s = some m) :
    s = witPrims.jsonStringify m := by
  simpa [witPrims] using h

/-- A sample IV. -/
def ivSample : List Byte := [7, 1, 255]

/-- Witness for C4: the cipher inversion contract holds of `witPrims`
and the round trip recovers a concrete metadata value. -/
theorem metadata_roundtrip_witness :
    (∀ k iv s, witPrims.aesDec (witPrims.sha256 k) iv
      (witPrims.aesEnc (witPrims.sha256 k) iv s) = some s) ∧
    decryptMetadata witPrims
      (encryptMetadata witPrims "hello" "secret" ivSample).encrypted
      (encryptMetadata witPrims "hello" "secret" ivSample).iv "secret" =
      some "hello" :=
  ⟨witPrims_aes,
   (metadata_roundtrip witPrims witPrims_aes witPrims_json
     "hello" "secret" ivSample).1⟩

/-- Witness for C10: at the empty key string on both sides the digests
agree, so decryption recovers the metadata. -/
theorem key_derivation_sha256_witness :
    (encryptMetadata witPrims "hello" "" ivSample).encrypted =
      witPrims.aesEnc (witPrims.sha256 "") ivSample
        (witPrims.jsonStringify "hello") ∧
    (decryptMetadata witPrims
        (encryptMetadata witPrims "hello" "" ivSample).encrypted
        (encryptMetadata witPrims "hello" "" ivSample).iv "" = some "hello" ↔
      witPrims.sha256 "" = witPrims.sha256 "") :=
  key_derivation_sha256 witPrims witPrims_aes witPrims_wk witPrims_json
    witPrims_pu "hello" "" "" ivSample

/-- A five-byte sample file, whose `witPrims` fingerprint is the issued
hash `5` of the sample deployment. -/
def bufSample : List Byte := [0, 0, 0, 0, 0]

/-- A blob fetch that always fails. -/
def fetchNone : String → Option EncryptedMetadata := fun _ => none

/-- Witness for C2: the record for the sample file is issued, the fetch
fails, and `/verify` still answers `valid` with null metadata. -/
theorem verifyRoute_ledger_decides_witness :
    (certOf sampleState (witPrims.fingerprint bufSample)).certExists = true ∧
    verifyRoute witPrims true sampleState (some bufSample) fetchNone "k" =
      .valid (witPrims.fingerprint bufSample)
        (certOf sampleState (witPrims.fingerprint bufSample)).issuer
        (certOf sampleState (witPrims.fingerprint bufSample)).timestamp
        (certOf sampleState (witPrims.fingerprint bufSample)).ipfsCID none :=
  ⟨by decide,
   ((verifyRoute_ledger_decides witPrims sampleState bufSample fetchNone "k").1
     (by decide)).2.1 rfl⟩

/-- A remote store that always fails. -/
def remoteNone : String → Option String := fun _ => none

/-- A local store that always succeeds with a fixed filename. -/
def localOk : String → Except Unit String := fun _ => .ok "local-123-abc.json"

/-- Witness for C8: the remote add fails and the call returns the local
reference after exactly one local call. -/
theorem uploadToIPFS_fallback_witness :
    remoteNone "blob" = none ∧
    uploadToIPFS true true remoteNone localOk "blob" =
      (Except.ok "local-123-abc.json", 1, 1) :=
  ⟨rfl, (uploadToIPFS_fallback remoteNone localOk "blob" rfl).1⟩

/-- Trivial primitives at the `Metadata` type, for the `/issue` route
witness. -/
def witPrimsMeta : CryptoPrims Metadata where
  fingerprint := fun buf => buf.length
  sha256 := fun _ => []
  aesEnc := fun _ _ _ => ""
  aesDec := fun _ _ _ => none
  jsonStringify := fun _ => ""
  jsonParse := fun _ => none

/-- An upload that always succeeds. -/
def uploadOk : EncryptedMetadata → Except Unit String := fun _ => .ok "local-1.json"

/-- An `/issue` request with a file but no student name. -/
def reqMissing : IssueRequest :=
  { file := some [1], studentName := none, courseName := some "c"
    institution := some "i", issueDate := some "2024-01-01"
    grade := some "A", additionalInfo := none }

/-- Witness for C9: the request misses `studentName`, so the handler
rejects it having performed no pipeline step. -/
theorem issueRoute_validates_first_witness :
    reqMissing.file = some [1] ∧
    (falsyStr reqMissing.studentName || falsyStr reqMissing.courseName ||
      falsyStr reqMissing.institution) = true ∧
    issueRoute witPrimsMeta true reqMissing "k" ivSample sampleState 1 30 uploadOk =
      (.missingMetadata, []) :=
  ⟨rfl, rfl,
   (issueRoute_validates_first witPrimsMeta reqMissing "k" ivSample sampleState
     1 30 uploadOk [1] rfl).1 rfl⟩

/-- An `/issue` request in which every required field is present in the
body, but `studentName` is the empty string. -/
def reqEmptyName : IssueRequest :=
  { file := some [1], studentName := some "", courseName := some "c"
    institution := some "i", issueDate := none, grade := none
    additionalInfo := none }

/-- C9 counterexample: all required metadata fields are present, yet
validation rejects the request, because the handler's JS falsiness test
`!metadata.studentName` also rejects a present-but-empty field. -/
theorem issueRoute_empty_field_counterexample :
    reqEmptyName.studentName ≠ none ∧ reqEmptyName.courseName ≠ none ∧
    reqEmptyName.institution ≠ none ∧
    issueRoute witPrimsMeta true reqEmptyName "k" ivSample sampleState 1 30
      uploadOk = (.missingMetadata, []) :=
  ⟨by decide, by decide, by decide, rfl⟩

end CertChain
